import Mathlib

/-!
Shallow embedding of the voting and reaction engine of the pulse-api
backend (Express + Prisma). The relevant handlers are:

* `POST /posts/:id/react`      (src/src/routes/posts.ts, lines 1047-1138)
* `POST /posts/:id/vs-vote`    (src/src/routes/posts.ts, lines 445-531)
* `POST /polls/:pollId/vote`   (src/src/routes/posts.ts, lines 534-667)
* `POST /comments/:id/react`   (src/routes/comments.ts, lines 190-269)

The database is modelled as lists of rows.  Prisma `findUnique` /
`findFirst` become `List.find?`; `count` becomes `List.countP`;
`delete` / `deleteMany` become `List.filter`; `update` becomes
`List.map` guarded on the row key.  The tables `PostReaction`,
`VsVote` and `CommentReaction` carry a database unique index on the
(user, target) pair, so the code's delete/update by primary key hits
exactly the rows selected by the (user, target) predicate; the model
deletes/updates by that predicate directly.
-/

namespace PulseApi

/-- Prisma enum `ReactionType`. -/
inductive RType
  | UPVOTE
  | DOWNVOTE
deriving DecidableEq, Repr

/-- Prisma enum `VsSide`. -/
inductive Side
  | A
  | B
deriving DecidableEq, Repr

/-- Error taxonomy of the handlers: each constructor corresponds to one
HTTP error answer of the routes (404 Not Found, 400 for malformed
arguments, and the typed poll validation failures thrown as
`POLL_ENDED`, `INVALID_OPTION`, `MULTIPLE_NOT_ALLOWED`,
`TOO_MANY_CHOICES` inside the poll-vote transaction). -/
inductive ApiErr
  | NotFound
  | InvalidArgument
  | PollEnded
  | InvalidOption
  | MultipleNotAllowed
  | TooManyChoices
deriving DecidableEq, Repr

/-- Row of the `Post` table (the columns the voting engine touches). -/
structure Post where
  id : Nat
  isHidden : Bool
  upvotes : Nat
  downvotes : Nat
  votesA : Nat
  votesB : Nat
deriving DecidableEq, Repr

/-- Row of `PostReaction`; unique index on (userId, postId). -/
structure PostReaction where
  userId : Nat
  postId : Nat
  type : RType
deriving DecidableEq, Repr

/-- Row of `VsVote`; unique index on (userId, postId). -/
structure VsVote where
  userId : Nat
  postId : Nat
  side : Side
deriving DecidableEq, Repr

/-- Row of the `Comment` table (the columns comment reactions touch).
`likeCount` is an `Int`: the handler decrements it blindly, so it can
go below zero on a drifted row. -/
structure Comment where
  id : Nat
  postId : Nat
  isHidden : Bool
  likeCount : Int
deriving DecidableEq, Repr

/-- Row of `CommentReaction`; unique index on (userId, commentId). -/
structure CommentReaction where
  userId : Nat
  commentId : Nat
  type : RType
deriving DecidableEq, Repr

/-- Row of the `Poll` table. `endsAt` is a nullable timestamp, modelled
as `Option Int` (milliseconds); `maxChoices` is a nullable integer. -/
structure Poll where
  id : Nat
  allowMultiple : Bool
  maxChoices : Option Nat
  endsAt : Option Int
  totalVotes : Nat
deriving DecidableEq, Repr

/-- Row of `PollOption`. -/
structure PollOption where
  id : Nat
  pollId : Nat
  order : Nat
  voteCount : Nat
deriving DecidableEq, Repr

/-- Row of `PollVote` (no unique constraint in the schema). -/
structure PollVote where
  userId : Nat
  pollId : Nat
  optionId : Nat
deriving DecidableEq, Repr

/-- The database state: one list of rows per table. -/
structure Db where
  posts : List Post
  postReactions : List PostReaction
  vsVotes : List VsVote
  comments : List Comment
  commentReactions : List CommentReaction
  polls : List Poll
  pollOptions : List PollOption
  pollVotes : List PollVote
deriving DecidableEq, Repr

/-! ### Generic list-counting lemmas -/

/-- Filtering away rows that never satisfy the counted predicate keeps
the count. -/
theorem countP_filter_keep {α : Type} (l : List α) (keep cnt : α → Bool)
    (h : ∀ a, cnt a = true → keep a = true) :
    (l.filter keep).countP cnt = l.countP cnt := by
  induction l with
  | nil => rfl
  | cons a tl ih =>
    by_cases hk : keep a = true
    · simp [List.filter_cons, hk, List.countP_cons, ih]
    · have hc : cnt a = false := by
        cases hcnt : cnt a with
        | false => rfl
        | true => exact absurd (h a hcnt) hk
      simp [List.filter_cons, hk, List.countP_cons, hc, ih]

/-- Mapping with a function that preserves the counted predicate keeps
the count. -/
theorem countP_map_inv {α : Type} (l : List α) (g : α → α) (cnt : α → Bool)
    (h : ∀ a, cnt (g a) = cnt a) :
    (l.map g).countP cnt = l.countP cnt := by
  induction l with
  | nil => rfl
  | cons a tl ih =>
    simp [List.map_cons, List.countP_cons, ih, h a]

/-- Mapping with a function that preserves the searched predicate
commutes with `find?`. -/
theorem find?_map_inv {α : Type} (l : List α) (g : α → α) (pr : α → Bool)
    (h : ∀ a, pr (g a) = pr a) :
    (l.map g).find? pr = (l.find? pr).map g := by
  induction l with
  | nil => rfl
  | cons a tl ih =>
    by_cases hp : pr a = true
    · simp [List.find?_cons, h a, hp]
    · have hp' : pr a = false := by simpa using hp
      simp [List.find?_cons, h a, hp', ih]

/-- Removing the unique row satisfying `pr` lowers every count by that
row's contribution. -/
theorem countP_remove_unique {α : Type} (l : List α) (pr cnt : α → Bool)
    (r0 : α) (hf : l.find? pr = some r0) (hu : l.countP pr ≤ 1) :
    l.countP cnt = (l.filter (fun a => !pr a)).countP cnt
      + (if cnt r0 then 1 else 0) := by
  induction l with
  | nil => simp at hf
  | cons a tl ih =>
    by_cases hp : pr a = true
    · have hr0 : r0 = a := by
        have := hf
        simp [List.find?_cons, hp] at this
        exact this.symm
      have htl : tl.countP pr = 0 := by
        have h1 : tl.countP pr + 1 ≤ 1 := by
          simpa [List.countP_cons, hp] using hu
        omega
      have htl' : ∀ x ∈ tl, ¬ pr x := List.countP_eq_zero.mp htl
      have hfil : tl.filter (fun a => !pr a) = tl := by
        rw [List.filter_eq_self]
        intro x hx
        simp [htl' x hx]
      simp only [List.countP_cons, List.filter_cons, hp, hr0, Bool.not_true,
        Bool.false_eq_true, if_false, if_true, hfil]
    · have hp' : pr a = false := by simpa using hp
      have hf' : tl.find? pr = some r0 := by
        have := hf
        simpa [List.find?_cons, hp'] using this
      have hu' : tl.countP pr ≤ 1 := by
        have h1 : tl.countP pr + 0 ≤ 1 := by
          simpa [List.countP_cons, hp'] using hu
        omega
      simp only [List.countP_cons, List.filter_cons, hp', Bool.not_false,
        if_true, Bool.false_eq_true, if_false, ih hf' hu']
      omega

/-! ### Reaction toggle on posts (`POST /posts/:id/react`) -/

/-- Number of reaction rows of one type on one post: the handler's
`prisma.postReaction.count` calls. -/
def countRT (rs : List PostReaction) (p : Nat) (t : RType) : Nat :=
  rs.countP (fun r => r.postId == p && decide (r.type = t))

/-- The reaction-ledger mutation of the handler: toggle off when the
existing row has the requested type, switch in place when it has the
other type, insert when there is none. -/
def mutateReactions (rs : List PostReaction) (u p : Nat) (t : RType) :
    List PostReaction :=
  match rs.find? (fun r => r.userId == u && r.postId == p) with
  | some ex =>
    if ex.type = t then
      rs.filter (fun r => !(r.userId == u && r.postId == p))
    else
      rs.map (fun r =>
        if r.userId == u && r.postId == p then { r with type := t } else r)
  | none => ⟨u, p, t⟩ :: rs

/-- `POST /posts/:id/react`: full successful execution.  Looks up the
post (missing or hidden gives 404), applies `mutateReactions`,
recounts both types and writes the counters onto the post row.
Returns the new state and the `upvotes`/`downvotes` of the answer.
NOTE: unlike the vs-vote and poll-vote handlers this one issues its
prisma calls outside any transaction; `toggleReactionPostAborted`
below models the partial executions. -/
def toggleReactionPost (db : Db) (u p : Nat) (t : RType) :
    Except ApiErr (Db × Nat × Nat) :=
  match db.posts.find? (fun q => q.id == p) with
  | none => .error .NotFound
  | some post =>
    if post.isHidden then .error .NotFound
    else
      let rs' := mutateReactions db.postReactions u p t
      let up := countRT rs' p .UPVOTE
      let dn := countRT rs' p .DOWNVOTE
      let posts' := db.posts.map (fun q =>
        if q.id == p then { q with upvotes := up, downvotes := dn } else q)
      .ok ({ db with posts := posts', postReactions := rs' }, up, dn)

/-- The handler's writes in program order: write 1 is the ledger
mutation (`create`/`update`/`delete` on `postReaction`), write 2 is the
counter write (`post.update`).  `toggleReactionPostAborted db u p t k`
is the state left behind when the handler dies after its first `k`
writes (validation failures perform no write at all). -/
def toggleReactionPostAborted (db : Db) (u p : Nat) (t : RType) (k : Nat) :
    Db :=
  match db.posts.find? (fun q => q.id == p) with
  | none => db
  | some post =>
    if post.isHidden then db
    else if k = 0 then db
    else
      let rs' := mutateReactions db.postReactions u p t
      if k = 1 then { db with postReactions := rs' }
      else
        let up := countRT rs' p .UPVOTE
        let dn := countRT rs' p .DOWNVOTE
        let posts' := db.posts.map (fun q =>
          if q.id == p then { q with upvotes := up, downvotes := dn } else q)
        { db with posts := posts', postReactions := rs' }

/-! ### Side voting on VS posts (`POST /posts/:id/vs-vote`) -/

/-- Number of side-vote rows of one side on one post. -/
def countVS (vs : List VsVote) (p : Nat) (s : Side) : Nat :=
  vs.countP (fun r => r.postId == p && decide (r.side = s))

/-- The vs-vote ledger mutation: insert on first vote, delete when the
stored side equals the requested one (unvote), update the side in
place otherwise (switch). -/
def mutateVsVotes (vs : List VsVote) (u p : Nat) (s : Side) :
    List VsVote :=
  match vs.find? (fun r => r.userId == u && r.postId == p) with
  | none => ⟨u, p, s⟩ :: vs
  | some ex =>
    if ex.side = s then
      vs.filter (fun r => !(r.userId == u && r.postId == p))
    else
      vs.map (fun r =>
        if r.userId == u && r.postId == p then { r with side := s } else r)

/-- `POST /posts/:id/vs-vote`: the whole body runs in one
`prisma.$transaction`.  The post lookup selects only `id` — there is
no `isHidden` test, a missing post throws `POST_NOT_FOUND` (404).
After the mutation both sides are recounted from the `vsVote` table
and written onto the post; the handler answers with the fresh
`votesA`/`votesB`. -/
def voteSide (db : Db) (u p : Nat) (s : Side) :
    Except ApiErr (Db × Nat × Nat) :=
  match db.posts.find? (fun q => q.id == p) with
  | none => .error .NotFound
  | some _ =>
    let vs' := mutateVsVotes db.vsVotes u p s
    let a := countVS vs' p .A
    let b := countVS vs' p .B
    let posts' := db.posts.map (fun q =>
      if q.id == p then { q with votesA := a, votesB := b } else q)
    .ok ({ db with posts := posts', vsVotes := vs' }, a, b)

/-! ### Poll voting (`POST /polls/:pollId/vote`) -/

/-- Option line of the handler's JSON answer.  The route computes
`percentage = Math.round(voteCount / totalVotes * 100)` (0 when the
poll has no votes); for nonnegative operands that is
`(voteCount * 200 + totalVotes) / (2 * totalVotes)` in floor
division. -/
structure PollOptionResult where
  id : Nat
  voteCount : Nat
  percentage : Nat
  order : Nat
deriving DecidableEq, Repr

/-- Body of the handler's JSON answer (the fields the engine owns). -/
structure PollVoteResult where
  totalVotes : Nat
  options : List PollOptionResult
deriving DecidableEq, Repr

/-- `Math.round(voteCount / totalVotes * 100)` with the route's
zero-total guard. -/
def pollPercentage (voteCount totalVotes : Nat) : Nat :=
  if totalVotes = 0 then 0
  else (voteCount * 200 + totalVotes) / (2 * totalVotes)

/-- The option ids belonging to a poll: the handler's
`validOptionIds = poll.options.map(o => o.id)`, where `poll.options`
is the relation `PollOption.pollId = poll.id`. -/
def pollValidIds (db : Db) (pid : Nat) : List Nat :=
  (db.pollOptions.filter (fun o => o.pollId == pid)).map (fun o => o.id)

/-- The `prisma.$transaction` body of `POST /polls/:pollId/vote`:
ordered validation (poll exists, deadline, option membership,
single-select cardinality, `maxChoices` cardinality), then replace
semantics (`deleteMany` of the caller's rows for the poll, one
`create` per requested id), then recount of every option of the poll
and of `totalVotes`.  The `maxChoices` test mirrors the JavaScript
truthiness of `poll.maxChoices && ...`: a stored value of `0` is
falsy, so the check is skipped for it.  The answer lists the poll's
options (the route orders them by `order`; ordering is not modelled,
the list keeps table order). -/
def votePollTx (db : Db) (now : Int) (u pid : Nat) (ids : List Nat) :
    Except ApiErr (Db × PollVoteResult) :=
  match db.polls.find? (fun q => q.id == pid) with
  | none => .error .NotFound
  | some poll =>
    if (match poll.endsAt with
        | some e => decide (e < now)
        | none => false) then .error .PollEnded
    else
      if !(ids.all (fun i => (pollValidIds db pid).contains i)) then
        .error .InvalidOption
      else if !poll.allowMultiple && ids.length > 1 then
        .error .MultipleNotAllowed
      else if poll.allowMultiple &&
          (match poll.maxChoices with
           | some m => !(m == 0) && ids.length > m
           | none => false) then .error .TooManyChoices
      else
        let votes' :=
          ids.map (fun oid => PollVote.mk u pid oid)
            ++ db.pollVotes.filter
                (fun v => !(v.userId == u && v.pollId == pid))
        let pollOptions' := db.pollOptions.map (fun o =>
          if o.pollId == pid then
            { o with voteCount :=
                votes'.countP (fun v => v.pollId == pid && v.optionId == o.id) }
          else o)
        let total := votes'.countP (fun v => v.pollId == pid)
        let polls' := db.polls.map (fun q =>
          if q.id == pid then { q with totalVotes := total } else q)
        let db' := { db with
          pollVotes := votes'
          pollOptions := pollOptions'
          polls := polls' }
        .ok (db', { totalVotes := total,
                    options :=
                      (pollOptions'.filter (fun o => o.pollId == pid)).map
                        (fun o => { id := o.id, voteCount := o.voteCount,
                                    percentage := pollPercentage o.voteCount total,
                                    order := o.order }) })

/-- The full route: before the transaction the handler rejects a body
whose `optionIds` is not a nonempty array
(`"optionIds array is required"`, HTTP 400). -/
def votePollRoute (db : Db) (now : Int) (u pid : Nat) (ids : List Nat) :
    Except ApiErr (Db × PollVoteResult) :=
  if ids.isEmpty then .error .InvalidArgument
  else votePollTx db now u pid ids

/-! ### Comment reactions (`POST /comments/:id/react`) -/

/-- Ledger-and-counter mutation of the comment like toggle: insert an
`UPVOTE` row and increment `likeCount`, or delete the existing row and
decrement `likeCount`. -/
def commentReactMut (db : Db) (u cid : Nat) : Db :=
  match db.commentReactions.find?
      (fun r => r.userId == u && r.commentId == cid) with
  | none =>
    { db with
      commentReactions :=
        CommentReaction.mk u cid RType.UPVOTE :: db.commentReactions,
      comments := db.comments.map (fun d =>
        if d.id == cid then { d with likeCount := d.likeCount + 1 }
        else d) }
  | some _ =>
    { db with
      commentReactions := db.commentReactions.filter
        (fun r => !(r.userId == u && r.commentId == cid)),
      comments := db.comments.map (fun d =>
        if d.id == cid then { d with likeCount := d.likeCount - 1 }
        else d) }

/-- `POST /comments/:id/react`: a like toggle.  The body carries no
reaction type; a new row is always created with `ReactionType.UPVOTE`.
With no existing row for (userId, commentId) the handler inserts one
and increments `likeCount`; with an existing row (of whatever type) it
deletes it and decrements `likeCount`.  The counter is adjusted
incrementally, never recounted.  The calls run outside any
transaction; after the mutation the handler re-reads the post and
answers 404 when it is missing or hidden (the reaction mutation has
already been applied by then — the model keeps the ok path and the
lookup failures only). -/
def commentReact (db : Db) (u cid pid : Nat) : Except ApiErr Db :=
  match db.comments.find? (fun c => c.id == cid) with
  | none => .error .NotFound
  | some c =>
    if !(c.postId == pid) || c.isHidden then .error .NotFound
    else
      match (commentReactMut db u cid).posts.find? (fun q => q.id == pid) with
      | none => .error .NotFound
      | some post =>
        if post.isHidden then .error .NotFound
        else .ok (commentReactMut db u cid)

example :
    (toggleReactionPost
      { posts := [⟨1, false, 0, 0, 0, 0⟩], postReactions := [],
        vsVotes := [], comments := [], commentReactions := [],
        polls := [], pollOptions := [], pollVotes := [] }
      7 1 .UPVOTE).toOption.map (fun r => (r.2.1, r.2.2)) =
      some (1, 0) := by decide

/-! ### Committed operation sequences and the counter invariant -/

/-- One inbound operation of the engine. -/
inductive Op where
  | react (u p : Nat) (t : RType)
  | vs (u p : Nat) (s : Side)
  | poll (now : Int) (u pid : Nat) (ids : List Nat)
  | comment (u cid pid : Nat)

/-- Committed effect of one operation on the store: the new state on
success, the unchanged state on any error (validation failures happen
before every write, and the transactional handlers roll back). -/
def step (db : Db) (op : Op) : Db :=
  match op with
  | .react u p t =>
    match toggleReactionPost db u p t with
    | .ok (db', _) => db'
    | .error _ => db
  | .vs u p s =>
    match voteSide db u p s with
    | .ok (db', _) => db'
    | .error _ => db
  | .poll now u pid ids =>
    match votePollRoute db now u pid ids with
    | .ok (db', _) => db'
    | .error _ => db
  | .comment u cid pid =>
    match commentReact db u cid pid with
    | .ok db' => db'
    | .error _ => db

/-- State after a sequence of committed operations. -/
def run (db : Db) (ops : List Op) : Db :=
  ops.foldl step db

/-- Every denormalized counter equals the live count of its ledger
rows: `post.upvotes`/`downvotes` against `PostReaction`,
`post.votesA`/`votesB` against `VsVote`, `poll.totalVotes` and
`pollOption.voteCount` against `PollVote`. -/
def Consistent (db : Db) : Prop :=
  (∀ q ∈ db.posts,
      q.upvotes = countRT db.postReactions q.id .UPVOTE ∧
      q.downvotes = countRT db.postReactions q.id .DOWNVOTE ∧
      q.votesA = countVS db.vsVotes q.id .A ∧
      q.votesB = countVS db.vsVotes q.id .B) ∧
  (∀ pl ∈ db.polls,
      pl.totalVotes = db.pollVotes.countP (fun v => v.pollId == pl.id)) ∧
  (∀ o ∈ db.pollOptions,
      o.voteCount = db.pollVotes.countP
        (fun v => v.pollId == o.pollId && v.optionId == o.id))

/-- The reaction mutation for the pair (u, p) leaves every count that
only looks at rows of other posts unchanged. -/
theorem mutateReactions_countP (rs : List PostReaction) (u p : Nat)
    (t : RType) (cnt : PostReaction → Bool)
    (hcnt : ∀ r, cnt r = true → r.postId ≠ p) :
    (mutateReactions rs u p t).countP cnt = rs.countP cnt := by
  unfold mutateReactions
  cases hfind : rs.find? (fun r => r.userId == u && r.postId == p) with
  | none =>
    have hhd : cnt ⟨u, p, t⟩ = false := by
      cases hc : cnt ⟨u, p, t⟩ with
      | false => rfl
      | true => exact absurd rfl (hcnt _ hc)
    simp [List.countP_cons, hhd]
  | some ex =>
    by_cases hty : ex.type = t
    · simp only [hty, if_true]
      apply countP_filter_keep
      intro a ha
      have hne := hcnt a ha
      simp only [Bool.not_eq_true']
      cases hpair : (a.userId == u && a.postId == p) with
      | false => rfl
      | true =>
        have : a.postId = p := by
          have := (Bool.and_eq_true _ _).mp hpair
          exact eq_of_beq this.2
        exact absurd this hne
    · simp only [hty, if_false]
      apply countP_map_inv
      intro a
      cases hpair : (a.userId == u && a.postId == p) with
      | false => simp [hpair]
      | true =>
        have hap : a.postId = p := by
          have := (Bool.and_eq_true _ _).mp hpair
          exact eq_of_beq this.2
        have h1 : cnt a = false := by
          cases hc : cnt a with
          | false => rfl
          | true => exact absurd hap (hcnt a hc)
        have h2 : cnt { a with type := t } = false := by
          cases hc : cnt { a with type := t } with
          | false => rfl
          | true => exact False.elim ((hcnt _ hc) hap)
        simp [hpair, h1, h2]

/-- The side-vote mutation for the pair (u, p) leaves every count that
only looks at rows of other posts unchanged. -/
theorem mutateVsVotes_countP (vs : List VsVote) (u p : Nat)
    (s : Side) (cnt : VsVote → Bool)
    (hcnt : ∀ r, cnt r = true → r.postId ≠ p) :
    (mutateVsVotes vs u p s).countP cnt = vs.countP cnt := by
  unfold mutateVsVotes
  cases hfind : vs.find? (fun r => r.userId == u && r.postId == p) with
  | none =>
    have hhd : cnt ⟨u, p, s⟩ = false := by
      cases hc : cnt ⟨u, p, s⟩ with
      | false => rfl
      | true => exact absurd rfl (hcnt _ hc)
    simp [List.countP_cons, hhd]
  | some ex =>
    by_cases hsd : ex.side = s
    · simp only [hsd, if_true]
      apply countP_filter_keep
      intro a ha
      have hne := hcnt a ha
      simp only [Bool.not_eq_true']
      cases hpair : (a.userId == u && a.postId == p) with
      | false => rfl
      | true =>
        have : a.postId = p := by
          have := (Bool.and_eq_true _ _).mp hpair
          exact eq_of_beq this.2
        exact absurd this hne
    · simp only [hsd, if_false]
      apply countP_map_inv
      intro a
      cases hpair : (a.userId == u && a.postId == p) with
      | false => simp [hpair]
      | true =>
        have hap : a.postId = p := by
          have := (Bool.and_eq_true _ _).mp hpair
          exact eq_of_beq this.2
        have h1 : cnt a = false := by
          cases hc : cnt a with
          | false => rfl
          | true => exact absurd hap (hcnt a hc)
        have h2 : cnt { a with side := s } = false := by
          cases hc : cnt { a with side := s } with
          | false => rfl
          | true => exact False.elim ((hcnt _ hc) hap)
        simp [hpair, h1, h2]

/-- The poll-vote replacement for (u, pid) leaves every count that
only looks at rows of other polls unchanged. -/
theorem pollReplace_countP (votes : List PollVote) (u pid : Nat)
    (ids : List Nat) (cnt : PollVote → Bool)
    (hcnt : ∀ v, cnt v = true → v.pollId ≠ pid) :
    (ids.map (fun oid => PollVote.mk u pid oid)
        ++ votes.filter (fun v => !(v.userId == u && v.pollId == pid))).countP
      cnt = votes.countP cnt := by
  rw [List.countP_append]
  have h1 : (ids.map (fun oid => PollVote.mk u pid oid)).countP cnt = 0 := by
    rw [List.countP_eq_zero]
    intro v hv
    rw [List.mem_map] at hv
    obtain ⟨oid, _, rfl⟩ := hv
    intro hc
    exact absurd rfl (hcnt _ hc)
  have h2 : (votes.filter
      (fun v => !(v.userId == u && v.pollId == pid))).countP cnt
      = votes.countP cnt := by
    apply countP_filter_keep
    intro a ha
    have hne := hcnt a ha
    simp only [Bool.not_eq_true']
    cases hpair : (a.userId == u && a.pollId == pid) with
    | false => rfl
    | true =>
      have : a.pollId = pid := by
        have := (Bool.and_eq_true _ _).mp hpair
        exact eq_of_beq this.2
      exact absurd this hne
  omega

/-- A successful reaction toggle keeps the counter invariant. -/
theorem toggleReactionPost_consistent (db : Db) (u p : Nat) (t : RType)
    (db' : Db) (r : Nat × Nat) (h : Consistent db)
    (hok : toggleReactionPost db u p t = .ok (db', r)) : Consistent db' := by
  unfold toggleReactionPost at hok
  split at hok
  · exact Except.noConfusion hok
  · split at hok
    · exact Except.noConfusion hok
    · simp only [Except.ok.injEq, Prod.mk.injEq] at hok
      obtain ⟨hdb, -⟩ := hok
      subst hdb
      refine ⟨?_, h.2.1, h.2.2⟩
      intro q' hq'
      simp only [List.mem_map] at hq'
      obtain ⟨q, hq, rfl⟩ := hq'
      by_cases hqp : (q.id == p) = true
      · have hqid : q.id = p := eq_of_beq hqp
        simp only [hqp, if_true]
        refine ⟨?_, ?_, ?_, ?_⟩
        · simp [hqid]
        · simp [hqid]
        · simpa using (h.1 q hq).2.2.1
        · simpa using (h.1 q hq).2.2.2
      · have hqid : q.id ≠ p := by
          intro hcon
          exact hqp (by simp [hcon])
        simp only [hqp, if_false]
        have hcount : ∀ t' : RType,
            countRT (mutateReactions db.postReactions u p t) q.id t'
              = countRT db.postReactions q.id t' := by
          intro t'
          unfold countRT
          apply mutateReactions_countP
          intro r hr
          have := (Bool.and_eq_true _ _).mp hr
          have : r.postId = q.id := eq_of_beq this.1
          omega
        refine ⟨?_, ?_, ?_, ?_⟩
        · simpa [hcount] using (h.1 q hq).1
        · simpa [hcount] using (h.1 q hq).2.1
        · simpa using (h.1 q hq).2.2.1
        · simpa using (h.1 q hq).2.2.2

/-- A successful side vote keeps the counter invariant. -/
theorem voteSide_consistent (db : Db) (u p : Nat) (s : Side)
    (db' : Db) (r : Nat × Nat) (h : Consistent db)
    (hok : voteSide db u p s = .ok (db', r)) : Consistent db' := by
  unfold voteSide at hok
  split at hok
  · exact Except.noConfusion hok
  · simp only [Except.ok.injEq, Prod.mk.injEq] at hok
    obtain ⟨hdb, -⟩ := hok
    subst hdb
    refine ⟨?_, h.2.1, h.2.2⟩
    intro q' hq'
    simp only [List.mem_map] at hq'
    obtain ⟨q, hq, rfl⟩ := hq'
    by_cases hqp : (q.id == p) = true
    · have hqid : q.id = p := eq_of_beq hqp
      simp only [hqp, if_true]
      refine ⟨?_, ?_, ?_, ?_⟩
      · simpa using (h.1 q hq).1
      · simpa using (h.1 q hq).2.1
      · simp [hqid]
      · simp [hqid]
    · have hqid : q.id ≠ p := by
        intro hcon
        exact hqp (by simp [hcon])
      simp only [hqp, if_false]
      have hcount : ∀ s' : Side,
          countVS (mutateVsVotes db.vsVotes u p s) q.id s'
            = countVS db.vsVotes q.id s' := by
        intro s'
        unfold countVS
        apply mutateVsVotes_countP
        intro r hr
        have := (Bool.and_eq_true _ _).mp hr
        have : r.postId = q.id := eq_of_beq this.1
        omega
      refine ⟨?_, ?_, ?_, ?_⟩
      · simpa using (h.1 q hq).1
      · simpa using (h.1 q hq).2.1
      · simpa [hcount] using (h.1 q hq).2.2.1
      · simpa [hcount] using (h.1 q hq).2.2.2

/-- A successful poll vote keeps the counter invariant. -/
theorem votePollTx_consistent (db : Db) (now : Int) (u pid : Nat)
    (ids : List Nat) (db' : Db) (r : PollVoteResult) (h : Consistent db)
    (hok : votePollTx db now u pid ids = .ok (db', r)) : Consistent db' := by
  unfold votePollTx at hok
  split at hok
  · exact Except.noConfusion hok
  · split at hok
    · exact Except.noConfusion hok
    · split at hok
      · exact Except.noConfusion hok
      · split at hok
        · exact Except.noConfusion hok
        · split at hok
          · exact Except.noConfusion hok
          · simp only [Except.ok.injEq, Prod.mk.injEq] at hok
            obtain ⟨hdb, -⟩ := hok
            subst hdb
            refine ⟨?_, ?_, ?_⟩
            · intro q hq
              simp only []
              exact h.1 q hq
            · intro pl' hpl'
              simp only [List.mem_map] at hpl'
              obtain ⟨pl, hpl, rfl⟩ := hpl'
              by_cases hplp : (pl.id == pid) = true
              · have hplid : pl.id = pid := eq_of_beq hplp
                simp [hplp, hplid]
              · have hb : (pl.id == pid) = false := by
                  cases hb2 : (pl.id == pid) with
                  | true => exact absurd hb2 hplp
                  | false => rfl
                have hne : pl.id ≠ pid := by
                  intro hc
                  subst hc
                  simp at hb
                have hrepl := pollReplace_countP db.pollVotes u pid ids
                    (fun v => v.pollId == pl.id) (by
                  intro v hv
                  have hv2 : v.pollId = pl.id := eq_of_beq hv
                  omega)
                simp only [hb, Bool.false_eq_true, if_false]
                rw [hrepl]
                exact h.2.1 pl hpl
            · intro o' ho'
              simp only [List.mem_map] at ho'
              obtain ⟨o, ho, rfl⟩ := ho'
              by_cases hop : (o.pollId == pid) = true
              · have hoid : o.pollId = pid := eq_of_beq hop
                simp [hop, hoid]
              · have hb : (o.pollId == pid) = false := by
                  cases hb2 : (o.pollId == pid) with
                  | true => exact absurd hb2 hop
                  | false => rfl
                have hne : o.pollId ≠ pid := by
                  intro hc
                  subst hc
                  simp at hb
                have hrepl := pollReplace_countP db.pollVotes u pid ids
                    (fun v => v.pollId == o.pollId && v.optionId == o.id) (by
                  intro v hv
                  have hv2 := (Bool.and_eq_true _ _).mp hv
                  have hv3 : v.pollId = o.pollId := eq_of_beq hv2.1
                  omega)
                simp only [hb, Bool.false_eq_true, if_false]
                rw [hrepl]
                exact h.2.2 o ho

/-- A successful comment reaction keeps the counter invariant: it only
touches the `Comment` and `CommentReaction` tables, none of which the
invariant mentions. -/
theorem commentReactMut_consistent (db : Db) (u cid : Nat)
    (h : Consistent db) : Consistent (commentReactMut db u cid) := by
  unfold commentReactMut
  split
  · exact h
  · exact h

theorem commentReact_consistent (db : Db) (u cid pid : Nat) (db' : Db)
    (h : Consistent db) (hok : commentReact db u cid pid = .ok db') :
    Consistent db' := by
  unfold commentReact at hok
  split at hok
  · exact Except.noConfusion hok
  · split at hok
    · exact Except.noConfusion hok
    · split at hok
      · exact Except.noConfusion hok
      · split at hok
        · exact Except.noConfusion hok
        · simp only [Except.ok.injEq] at hok
          subst hok
          exact commentReactMut_consistent db u cid h

/-- One committed operation keeps the counter invariant. -/
theorem step_consistent (db : Db) (op : Op) (h : Consistent db) :
    Consistent (step db op) := by
  cases op with
  | react u p t =>
    simp only [step]
    cases hcall : toggleReactionPost db u p t with
    | ok pr =>
      obtain ⟨db1, r1⟩ := pr
      exact toggleReactionPost_consistent db u p t db1 r1 h hcall
    | error e => exact h
  | vs u p s =>
    simp only [step]
    cases hcall : voteSide db u p s with
    | ok pr =>
      obtain ⟨db1, r1⟩ := pr
      exact voteSide_consistent db u p s db1 r1 h hcall
    | error e => exact h
  | poll now u pid ids =>
    simp only [step]
    cases hcall : votePollRoute db now u pid ids with
    | ok pr =>
      obtain ⟨db1, r1⟩ := pr
      unfold votePollRoute at hcall
      split at hcall
      · exact Except.noConfusion hcall
      · exact votePollTx_consistent db now u pid ids db1 r1 h hcall
    | error e => exact h
  | comment u cid pid =>
    simp only [step]
    cases hcall : commentReact db u cid pid with
    | ok db2 => exact commentReact_consistent db u cid pid db2 h hcall
    | error e => exact h

/-- Any sequence of committed operations keeps the counter invariant. -/
theorem run_consistent (ops : List Op) (db : Db) (h : Consistent db) :
    Consistent (run db ops) := by
  induction ops generalizing db with
  | nil => exact h
  | cons op tl ih => exact ih (step db op) (step_consistent db op h)

/-! ### Observation helpers -/

/-- The post row with a given id. -/
def findPost (db : Db) (p : Nat) : Option Post :=
  db.posts.find? (fun q => q.id == p)

/-- The caller's reaction row on a post. -/
def findReaction (db : Db) (u p : Nat) : Option PostReaction :=
  db.postReactions.find? (fun r => r.userId == u && r.postId == p)

/-- The caller's side-vote row on a post. -/
def findVs (db : Db) (u p : Nat) : Option VsVote :=
  db.vsVotes.find? (fun r => r.userId == u && r.postId == p)

/-- The stored (upvotes, downvotes) pair of a post. -/
def postCounters (db : Db) (p : Nat) : Option (Nat × Nat) :=
  (findPost db p).map (fun q => (q.upvotes, q.downvotes))

/-- Splitting a reaction count by type: upvotes plus downvotes is the
number of reaction rows of the post. -/
theorem countRT_add (rs : List PostReaction) (p : Nat) :
    countRT rs p .UPVOTE + countRT rs p .DOWNVOTE
      = rs.countP (fun r => r.postId == p) := by
  induction rs with
  | nil => rfl
  | cons r tl ih =>
    obtain ⟨ru, rp, rt⟩ := r
    unfold countRT at ih ⊢
    cases hp : (rp == p) with
    | false => simp [List.countP_cons, hp, ih]
    | true =>
      cases rt with
      | UPVOTE =>
        simp only [List.countP_cons, hp]
        simp
        omega
      | DOWNVOTE =>
        simp only [List.countP_cons, hp]
        simp
        omega

/-- Sample database used by concrete witnesses: one visible post, one
comment on it, and one fresh single-select poll with three options. -/
def dbW : Db :=
  { posts := [⟨1, false, 0, 0, 0, 0⟩]
    postReactions := []
    vsVotes := []
    comments := [⟨1, 1, false, 0⟩]
    commentReactions := []
    polls := [⟨1, false, none, none, 0⟩]
    pollOptions := [⟨11, 1, 0, 0⟩, ⟨12, 1, 1, 0⟩, ⟨13, 1, 2, 0⟩]
    pollVotes := [] }

/-- C3: in every state reachable from a consistent state by committed
toggleReaction, voteSide and votePoll calls (comment likes included),
every denormalized counter equals the live count of its ledger rows,
and a post's upvotes plus downvotes is the number of its reaction
rows. -/
theorem reachable_counters_consistent (db0 : Db) (ops : List Op)
    (h : Consistent db0) :
    Consistent (run db0 ops) ∧
    ∀ q ∈ (run db0 ops).posts,
      q.upvotes + q.downvotes
        = (run db0 ops).postReactions.countP (fun r => r.postId == q.id) := by
  have hc := run_consistent ops db0 h
  refine ⟨hc, ?_⟩
  intro q hq
  have h1 := (hc.1 q hq).1
  have h2 := (hc.1 q hq).2.1
  rw [h1, h2, countRT_add]

/-- C3 witness: a concrete consistent start plus a concrete operation
mix keeps all counters equal to their recounted values. -/
theorem reachable_counters_consistent_witness :
    Consistent dbW ∧
    (Consistent (run dbW [Op.react 1 1 .UPVOTE, Op.vs 2 1 .A,
        Op.poll 0 3 1 [12], Op.comment 4 1 1, Op.react 1 1 .DOWNVOTE]) ∧
      ∀ q ∈ (run dbW [Op.react 1 1 .UPVOTE, Op.vs 2 1 .A,
          Op.poll 0 3 1 [12], Op.comment 4 1 1,
          Op.react 1 1 .DOWNVOTE]).posts,
        q.upvotes + q.downvotes
          = (run dbW [Op.react 1 1 .UPVOTE, Op.vs 2 1 .A,
              Op.poll 0 3 1 [12], Op.comment 4 1 1,
              Op.react 1 1 .DOWNVOTE]).postReactions.countP
              (fun r => r.postId == q.id)) :=
  ⟨by unfold Consistent; decide,
   reachable_counters_consistent dbW
     [Op.react 1 1 .UPVOTE, Op.vs 2 1 .A, Op.poll 0 3 1 [12],
      Op.comment 4 1 1, Op.react 1 1 .DOWNVOTE]
     (by unfold Consistent; decide)⟩

/-! ### The side-vote state machine -/

/-- The per-(user, post) state machine of the specification: no row
plus vote(S) inserts S; a row of the same side is an unvote; a row of
the other side switches. -/
def sideTransition : Option Side → Side → Option Side
  | none, s => some s
  | some c, s => if c = s then none else some s

/-- Full characterization of a successful side vote: the vote exists
whenever the post does, the caller's row follows `sideTransition`, the
returned counts are recounted from the mutated ledger, and they are
persisted onto the post row. -/
theorem voteSide_spec (db : Db) (u p : Nat) (s : Side) (post : Post)
    (hfp : findPost db p = some post) :
    ∃ db' a b, voteSide db u p s = .ok (db', a, b) ∧
      db'.vsVotes = mutateVsVotes db.vsVotes u p s ∧
      (findVs db' u p).map VsVote.side
        = sideTransition ((findVs db u p).map VsVote.side) s ∧
      a = countVS db'.vsVotes p .A ∧
      b = countVS db'.vsVotes p .B ∧
      (findPost db' p).map Post.votesA = some a ∧
      (findPost db' p).map Post.votesB = some b := by
  unfold findPost at hfp
  have hpost : (post.id == p) = true := by
    have h2 := List.find?_some hfp
    simpa using h2
  unfold voteSide
  rw [hfp]
  refine ⟨_, _, _, rfl, rfl, ?_, rfl, rfl, ?_, ?_⟩
  · unfold findVs mutateVsVotes
    cases hfr : db.vsVotes.find? (fun r => r.userId == u && r.postId == p) with
    | none =>
      simp [List.find?_cons, sideTransition]
    | some ex =>
      have hex : (ex.userId == u && ex.postId == p) = true := by
        have h2 := List.find?_some hfr
        simpa using h2
      by_cases hsd : ex.side = s
      · simp only [hsd, if_true]
        have hnone : (db.vsVotes.filter
            (fun r => !(r.userId == u && r.postId == p))).find?
              (fun r => r.userId == u && r.postId == p) = none := by
          rw [List.find?_eq_none]
          intro x hx
          have := (List.mem_filter.mp hx).2
          simp only [Bool.not_eq_true'] at this
          simp [this]
        rw [hnone]
        simp [sideTransition, hsd]
      · simp only [hsd, if_false]
        rw [find?_map_inv]
        · rw [hfr]
          have h3 := (Bool.and_eq_true _ _).mp hex
          have h4 : ex.userId = u := eq_of_beq h3.1
          have h5 : ex.postId = p := eq_of_beq h3.2
          simp [sideTransition, hsd, h4, h5]
        · intro a
          cases hpr : (a.userId == u && a.postId == p) with
          | false => simp [hpr]
          | true => simp [hpr]
  · unfold findPost
    rw [find?_map_inv]
    · rw [hfp]
      have hpp : post.id = p := by simpa using hpost
      simp [hpp]
    · intro a
      cases hpr : (a.id == p) with
      | false => simp [hpr]
      | true => simp [hpr]
  · unfold findPost
    rw [find?_map_inv]
    · rw [hfp]
      have hpp : post.id = p := by simpa using hpost
      simp [hpp]
    · intro a
      cases hpr : (a.id == p) with
      | false => simp [hpr]
      | true => simp [hpr]

/-- Sample database with a single hidden post. -/
def dbH : Db :=
  { posts := [⟨2, true, 0, 0, 0, 0⟩]
    postReactions := []
    vsVotes := []
    comments := []
    commentReactions := []
    polls := []
    pollOptions := []
    pollVotes := [] }

/-- C7: voteSide implements the NoVote/VotedA/VotedB state machine
(insert on first vote, delete on same side, update side on switch),
recounts both sides afterwards, persists them on the post and returns
them; on a fresh VS post the run U1 votes A, U2 votes B, U1 votes B
answers (1,0), (1,1), (0,2). -/
theorem voteSide_state_machine :
    (∀ db u p s post, findPost db p = some post →
      ∃ db' a b, voteSide db u p s = .ok (db', a, b) ∧
        (findVs db' u p).map VsVote.side
          = sideTransition ((findVs db u p).map VsVote.side) s ∧
        a = countVS db'.vsVotes p .A ∧
        b = countVS db'.vsVotes p .B ∧
        (findPost db' p).map Post.votesA = some a ∧
        (findPost db' p).map Post.votesB = some b) ∧
    ((voteSide dbW 1 1 Side.A).toOption.bind (fun r1 =>
      (voteSide r1.1 2 1 Side.B).toOption.bind (fun r2 =>
        (voteSide r2.1 1 1 Side.B).toOption.map (fun r3 =>
          (r1.2, r2.2, r3.2)))))
      = some ((1, 0), (1, 1), (0, 2)) := by
  constructor
  · intro db u p s post hfp
    obtain ⟨db', a, b, h1, _, h3, h4, h5, h6, h7⟩ :=
      voteSide_spec db u p s post hfp
    exact ⟨db', a, b, h1, h3, h4, h5, h6, h7⟩
  · decide

/-- C7 witness: the state-machine characterization applied to the
sample post. -/
theorem voteSide_state_machine_witness :
    findPost dbW 1 = some ⟨1, false, 0, 0, 0, 0⟩ ∧
    (∃ db' a b, voteSide dbW 1 1 Side.A = .ok (db', a, b) ∧
      (findVs db' 1 1).map VsVote.side
        = sideTransition ((findVs dbW 1 1).map VsVote.side) Side.A ∧
      a = countVS db'.vsVotes 1 .A ∧
      b = countVS db'.vsVotes 1 .B ∧
      (findPost db' 1).map Post.votesA = some a ∧
      (findPost db' 1).map Post.votesB = some b) :=
  ⟨by decide,
   voteSide_state_machine.1 dbW 1 1 Side.A ⟨1, false, 0, 0, 0, 0⟩ (by decide)⟩

/-- C9: voteSide never consults `isHidden` — on a hidden but existing
post it succeeds, applies the transition and returns recomputed
counts, while toggleReaction on the same hidden post answers NotFound;
voteSide answers NotFound exactly when the post row is absent. -/
theorem voteSide_ignores_hidden :
    (∀ db u p s post, findPost db p = some post → post.isHidden = true →
      (∃ db' a b, voteSide db u p s = .ok (db', a, b) ∧
        (findVs db' u p).map VsVote.side
          = sideTransition ((findVs db u p).map VsVote.side) s ∧
        a = countVS db'.vsVotes p .A ∧
        b = countVS db'.vsVotes p .B) ∧
      (∀ t, toggleReactionPost db u p t = .error .NotFound)) ∧
    (∀ db u p s, findPost db p = none →
      voteSide db u p s = .error .NotFound) := by
  constructor
  · intro db u p s post hfp hhid
    constructor
    · obtain ⟨db', a, b, h1, _, h3, h4, h5, _, _⟩ :=
        voteSide_spec db u p s post hfp
      exact ⟨db', a, b, h1, h3, h4, h5⟩
    · intro t
      unfold toggleReactionPost
      unfold findPost at hfp
      rw [hfp]
      simp [hhid]
  · intro db u p s hfp
    unfold voteSide
    unfold findPost at hfp
    rw [hfp]

/-- C9 witness: the hidden-post behaviour at the sample hidden post. -/
theorem voteSide_ignores_hidden_witness :
    (findPost dbH 2 = some ⟨2, true, 0, 0, 0, 0⟩ ∧
      (⟨2, true, 0, 0, 0, 0⟩ : Post).isHidden = true) ∧
    ((∃ db' a b, voteSide dbH 1 2 Side.A = .ok (db', a, b) ∧
        (findVs db' 1 2).map VsVote.side
          = sideTransition ((findVs dbH 1 2).map VsVote.side) Side.A ∧
        a = countVS db'.vsVotes 2 .A ∧
        b = countVS db'.vsVotes 2 .B) ∧
      (∀ t, toggleReactionPost dbH 1 2 t = .error .NotFound)) :=
  ⟨⟨by decide, by decide⟩,
   voteSide_ignores_hidden.1 dbH 1 2 Side.A ⟨2, true, 0, 0, 0, 0⟩
     (by decide) (by decide)⟩


/-! ### Poll voting claims -/

/-- The poll row with a given id. -/
def findPollRow (db : Db) (pid : Nat) : Option Poll :=
  db.polls.find? (fun q => q.id == pid)

/-- The poll-option row with a given id. -/
def findOptionRow (db : Db) (oid : Nat) : Option PollOption :=
  db.pollOptions.find? (fun o => o.id == oid)

/-- The stored `voteCount` of an option. -/
def pollOptionCount (db : Db) (oid : Nat) : Option Nat :=
  (findOptionRow db oid).map (fun o => o.voteCount)

/-- The stored `totalVotes` of a poll. -/
def pollTotal (db : Db) (pid : Nat) : Option Nat :=
  (findPollRow db pid).map (fun q => q.totalVotes)

/-- `List.contains` agrees with list membership. -/
theorem contains_eq_decide_mem (l : List Nat) (i : Nat) :
    l.contains i = decide (i ∈ l) := by
  simp

/-- `List.all` only depends on the pointwise values of its predicate. -/
theorem all_congr_fun {α : Type} (l : List α) (f g : α → Bool)
    (h : ∀ i, f i = g i) : l.all f = l.all g := by
  induction l with
  | nil => rfl
  | cons a tl ih => simp [List.all_cons, h a, ih]

/-- Sample database where user 1 already voted option 11 of the
single-select poll 1. -/
def dbP : Db :=
  { posts := [⟨1, false, 0, 0, 0, 0⟩]
    postReactions := []
    vsVotes := []
    comments := []
    commentReactions := []
    polls := [⟨1, false, none, none, 1⟩]
    pollOptions := [⟨11, 1, 0, 1⟩, ⟨12, 1, 1, 0⟩, ⟨13, 1, 2, 0⟩]
    pollVotes := [⟨1, 1, 11⟩] }

/-- C1 counterexample: voting with `optionIds = []` does not clear the
caller's vote — the route rejects the body with the 400
`"optionIds array is required"` answer before the transaction, and the
caller's existing Poll Vote Record survives. -/
theorem votePoll_empty_counterexample :
    dbP.pollVotes = [⟨1, 1, 11⟩] ∧
    votePollRoute dbP 0 1 1 [] = .error .InvalidArgument ∧
    step dbP (Op.poll 0 1 1 []) = dbP := by
  refine ⟨rfl, rfl, rfl⟩

/-- C1 amended: for every user and poll id, `optionIds = []` is
rejected as InvalidArgument by the route check
`!Array.isArray(optionIds) || optionIds.length === 0`, before any
validation or write; the state is unchanged. -/
theorem votePoll_empty_rejected (db : Db) (now : Int) (u pid : Nat) :
    votePollRoute db now u pid [] = .error .InvalidArgument ∧
    step db (Op.poll now u pid []) = db :=
  ⟨rfl, rfl⟩

/-- C6: a successful poll vote has replace semantics — afterwards the
caller's Poll Vote Records for the poll are exactly one record per
submitted id, every other record is untouched; on the single-select
sample poll, voting 11 then 12 ends with `voteCount` 0 for 11, 1 for
12, and `totalVotes` 1. -/
theorem votePoll_replace_semantics :
    (∀ db now u pid ids db' res,
      votePollRoute db now u pid ids = .ok (db', res) →
      db'.pollVotes.filter (fun v => v.userId == u && v.pollId == pid)
        = ids.map (fun oid => PollVote.mk u pid oid) ∧
      db'.pollVotes.filter (fun v => !(v.userId == u && v.pollId == pid))
        = db.pollVotes.filter (fun v => !(v.userId == u && v.pollId == pid))) ∧
    ((votePollRoute dbW 0 1 1 [11]).toOption.bind (fun r1 =>
      (votePollRoute r1.1 0 1 1 [12]).toOption.map (fun r2 =>
        (pollOptionCount r2.1 11, pollOptionCount r2.1 12,
          pollTotal r2.1 1))))
      = some (some 0, some 1, some 1) := by
  constructor
  · intro db now u pid ids db' res hok
    unfold votePollRoute at hok
    by_cases hemp : ids.isEmpty = true
    · rw [if_pos hemp] at hok
      exact Except.noConfusion hok
    · rw [if_neg hemp] at hok
      unfold votePollTx at hok
      split at hok
      · exact Except.noConfusion hok
      · split at hok
        · exact Except.noConfusion hok
        · split at hok
          · exact Except.noConfusion hok
          · split at hok
            · exact Except.noConfusion hok
            · split at hok
              · exact Except.noConfusion hok
              · simp only [Except.ok.injEq, Prod.mk.injEq] at hok
                obtain ⟨hdb, -⟩ := hok
                subst hdb
                constructor
                · show ((ids.map (fun oid => PollVote.mk u pid oid)
                      ++ db.pollVotes.filter
                          (fun v => !(v.userId == u && v.pollId == pid))).filter
                      (fun v => v.userId == u && v.pollId == pid))
                    = ids.map (fun oid => PollVote.mk u pid oid)
                  rw [List.filter_append]
                  have hA : (ids.map (fun oid => PollVote.mk u pid oid)).filter
                      (fun v => v.userId == u && v.pollId == pid)
                      = ids.map (fun oid => PollVote.mk u pid oid) := by
                    rw [List.filter_eq_self]
                    intro v hv
                    rw [List.mem_map] at hv
                    obtain ⟨oid, -, rfl⟩ := hv
                    simp
                  have hB : ((db.pollVotes.filter
                      (fun v => !(v.userId == u && v.pollId == pid))).filter
                      (fun v => v.userId == u && v.pollId == pid)) = [] := by
                    rw [List.filter_filter, List.filter_eq_nil_iff]
                    intro v hv
                    cases hp : (v.userId == u && v.pollId == pid) <;> simp [hp]
                  rw [hA, hB, List.append_nil]
                · show ((ids.map (fun oid => PollVote.mk u pid oid)
                      ++ db.pollVotes.filter
                          (fun v => !(v.userId == u && v.pollId == pid))).filter
                      (fun v => !(v.userId == u && v.pollId == pid)))
                    = db.pollVotes.filter
                        (fun v => !(v.userId == u && v.pollId == pid))
                  rw [List.filter_append]
                  have hA : (ids.map (fun oid => PollVote.mk u pid oid)).filter
                      (fun v => !(v.userId == u && v.pollId == pid)) = [] := by
                    rw [List.filter_eq_nil_iff]
                    intro v hv
                    rw [List.mem_map] at hv
                    obtain ⟨oid, -, rfl⟩ := hv
                    simp
                  have hB : ((db.pollVotes.filter
                      (fun v => !(v.userId == u && v.pollId == pid))).filter
                      (fun v => !(v.userId == u && v.pollId == pid)))
                      = db.pollVotes.filter
                          (fun v => !(v.userId == u && v.pollId == pid)) := by
                    rw [List.filter_filter]
                    apply List.filter_congr
                    intro v hv
                    cases hp : (v.userId == u && v.pollId == pid) <;> simp [hp]
                  rw [hA, hB, List.nil_append]
  · decide

/-- C6 witness: the replace-semantics characterization applied to the
first vote of the sample scenario. -/
theorem votePoll_replace_semantics_witness :
    (votePollRoute dbW 0 1 1 [11]).toOption.map
        (fun r => (r.1.pollVotes.filter
            (fun v => v.userId == 1 && v.pollId == 1),
          r.1.pollVotes.filter
            (fun v => !(v.userId == 1 && v.pollId == 1))))
      = some ([PollVote.mk 1 1 11], []) := by
  cases hrun : votePollRoute dbW 0 1 1 [11] with
  | error e =>
    have hok : (votePollRoute dbW 0 1 1 [11]).isOk = true := by decide
    rw [hrun] at hok
    exact Bool.noConfusion hok
  | ok pr =>
    have h2 := votePoll_replace_semantics.1 dbW 0 1 1 [11] pr.1 pr.2
      (by rw [hrun])
    simp only [Except.toOption, Option.map_some']
    rw [h2.1, h2.2]
    rfl

/-! ### Ordered validation of the poll vote -/

/-- The error component of a handler result. -/
def exceptError {β : Type} : Except ApiErr β → Option ApiErr
  | .error e => some e
  | .ok _ => none

/-- Modelled from the specification wording of the ordered validation
(first failure wins): poll exists, else NotFound; `endsAt` unset or
`now ≤ endsAt`, else PollEnded; every requested id one of the poll's
options, else InvalidOption; if not `allowMultiple` then at most one
id, else MultipleNotAllowed; if `allowMultiple` and `maxChoices` set
to a nonzero value then at most `maxChoices` ids, else TooManyChoices.
The nonzero proviso is the one amendment forced by the code: the
handler tests `poll.maxChoices && ...`, and `0` is falsy in
JavaScript. -/
def pollFirstFailureSpec (db : Db) (now : Int) (pid : Nat)
    (ids : List Nat) : Option ApiErr :=
  match db.polls.find? (fun q => q.id == pid) with
  | none => some .NotFound
  | some poll =>
    if poll.endsAt.all (fun e => decide (now ≤ e)) = false then
      some .PollEnded
    else if (ids.all (fun i => decide (i ∈ pollValidIds db pid))) = false then
      some .InvalidOption
    else if poll.allowMultiple = false ∧ ids.length > 1 then
      some .MultipleNotAllowed
    else
      match poll.maxChoices with
      | some m =>
        if poll.allowMultiple = true ∧ m ≠ 0 ∧ ids.length > m then
          some .TooManyChoices
        else none
      | none => none

/-- The transaction's validation agrees with the ordered first-failure
reading of the specification on every input. -/
theorem votePollTx_errors (db : Db) (now : Int) (u pid : Nat)
    (ids : List Nat) :
    exceptError (votePollTx db now u pid ids)
      = pollFirstFailureSpec db now pid ids := by
  have e2 : (ids.all (fun i => (pollValidIds db pid).contains i))
      = (ids.all (fun i => decide (i ∈ pollValidIds db pid))) :=
    all_congr_fun ids _ _ (fun i => contains_eq_decide_mem _ i)
  unfold votePollTx pollFirstFailureSpec
  cases hfind : db.polls.find? (fun q => q.id == pid) with
  | none => rfl
  | some poll =>
    rw [e2]
    cases hpe : poll.endsAt with
    | some e =>
      by_cases hlt : e < now
      · have h1 : decide (e < now) = true := decide_eq_true hlt
        have h2 : decide (now ≤ e) = false := decide_eq_false (by omega)
        simp [hpe, h1, h2, exceptError, Option.all]
      · have h1 : decide (e < now) = false := by
          simpa using hlt
        have h2 : decide (now ≤ e) = true := decide_eq_true (by omega)
        simp only [hpe, h1, h2, Option.all, Bool.false_eq_true, if_false,
          Bool.true_eq_false]
        by_cases hval : (ids.all (fun i => decide (i ∈ pollValidIds db pid)))
            = true
        · simp only [hval, Bool.not_true, Bool.false_eq_true, if_false,
            Bool.true_eq_false]
          by_cases ham : poll.allowMultiple = true
          · have hamf : (poll.allowMultiple = false ∧ ids.length > 1) ↔
                False := by simp [ham]
            cases hmc : poll.maxChoices with
            | none => simp [ham, hamf, exceptError, hmc]
            | some m =>
              by_cases hm0 : m = 0
              · simp [ham, hamf, exceptError, hmc, hm0]
              · by_cases hlen2 : ids.length > m
                · simp [ham, hamf, exceptError, hmc, hm0, hlen2]
                · simp [ham, hamf, exceptError, hmc, hm0, hlen2]
          · have hamf : poll.allowMultiple = false := by
              simpa using ham
            by_cases hlen : ids.length > 1
            · simp [hamf, hlen, exceptError]
            · cases hmc : poll.maxChoices with
              | none => simp [hamf, hlen, exceptError, hmc]
              | some m => simp [hamf, hlen, exceptError, hmc]
        · have hvalf : (ids.all (fun i => decide (i ∈ pollValidIds db pid)))
              = false := by simpa using hval
          simp [hvalf, exceptError]
    | none =>
      simp only [hpe, Option.all, Bool.false_eq_true, if_false,
        Bool.true_eq_false]
      by_cases hval : (ids.all (fun i => decide (i ∈ pollValidIds db pid)))
          = true
      · simp only [hval, Bool.not_true, Bool.false_eq_true, if_false,
          Bool.true_eq_false]
        by_cases ham : poll.allowMultiple = true
        · have hamf : (poll.allowMultiple = false ∧ ids.length > 1) ↔
              False := by simp [ham]
          cases hmc : poll.maxChoices with
          | none => simp [ham, hamf, exceptError, hmc]
          | some m =>
            by_cases hm0 : m = 0
            · simp [ham, hamf, exceptError, hmc, hm0]
            · by_cases hlen2 : ids.length > m
              · simp [ham, hamf, exceptError, hmc, hm0, hlen2]
              · simp [ham, hamf, exceptError, hmc, hm0, hlen2]
        · have hamf : poll.allowMultiple = false := by
            simpa using ham
          by_cases hlen : ids.length > 1
          · simp [hamf, hlen, exceptError]
          · cases hmc : poll.maxChoices with
            | none => simp [hamf, hlen, exceptError, hmc]
            | some m => simp [hamf, hlen, exceptError, hmc]
      · have hvalf : (ids.all (fun i => decide (i ∈ pollValidIds db pid)))
            = false := by simpa using hval
        simp [hvalf, exceptError]

/-- C5 amended: votePoll's transaction validates in the fixed order of
the specification — poll exists, deadline, option membership,
single-select cardinality, `maxChoices` cardinality — the first
failing check determines the returned error for every input, with the
one proviso that a stored `maxChoices` of zero disables the
TooManyChoices check (JavaScript truthiness); on every validation
failure the committed state is unchanged. -/
theorem votePoll_validation_order :
    (∀ db now u pid ids,
      exceptError (votePollTx db now u pid ids)
        = pollFirstFailureSpec db now pid ids) ∧
    (∀ db now u pid ids e, votePollTx db now u pid ids = .error e →
      step db (Op.poll now u pid ids) = db) := by
  constructor
  · intro db now u pid ids
    exact votePollTx_errors db now u pid ids
  · intro db now u pid ids e he
    simp only [step]
    unfold votePollRoute
    by_cases hemp : ids.isEmpty = true
    · simp [hemp]
    · simp [hemp, he]

/-- Sample database with a multi-select poll whose `maxChoices` is
stored as 0. -/
def dbM : Db :=
  { posts := []
    postReactions := []
    vsVotes := []
    comments := []
    commentReactions := []
    polls := [⟨2, true, some 0, none, 0⟩]
    pollOptions := [⟨21, 2, 0, 0⟩, ⟨22, 2, 1, 0⟩, ⟨23, 2, 2, 0⟩]
    pollVotes := [] }

/-- C5 counterexample: on a multi-select poll with `maxChoices` set to
0, submitting one valid option succeeds even though the claim's rule
`|optionIds| <= maxChoices` is violated — `poll.maxChoices && ...` is
skipped for the falsy 0. -/
theorem votePoll_maxChoices_zero_counterexample :
    dbM.polls = [⟨2, true, some 0, none, 0⟩] ∧
    exceptError (votePollRoute dbM 0 1 2 [21]) = none := by decide

/-- C5 witness: the validation-order characterization applied to a
two-option submission on the single-select sample poll. -/
theorem votePoll_validation_order_witness :
    exceptError (votePollTx dbP 0 1 1 [11, 12])
      = pollFirstFailureSpec dbP 0 1 [11, 12] ∧
    step dbP (Op.poll 0 1 1 [11, 12]) = dbP :=
  ⟨votePoll_validation_order.1 dbP 0 1 1 [11, 12],
   votePoll_validation_order.2 dbP 0 1 1 [11, 12] .MultipleNotAllowed
     (by rfl)⟩

/-- C10: the cardinality checks count list entries, not distinct ids —
on a live single-select poll, submitting the same valid option twice
fails MultipleNotAllowed and leaves the state unchanged. -/
theorem votePoll_duplicate_ids (db : Db) (now : Int) (u pid X : Nat)
    (poll : Poll) (hfind : findPollRow db pid = some poll)
    (hsingle : poll.allowMultiple = false)
    (hlive : poll.endsAt.all (fun e => decide (now ≤ e)) = true)
    (hX : X ∈ pollValidIds db pid) :
    votePollRoute db now u pid [X, X] = .error .MultipleNotAllowed ∧
    step db (Op.poll now u pid [X, X]) = db := by
  have hspec : pollFirstFailureSpec db now pid [X, X]
      = some .MultipleNotAllowed := by
    unfold pollFirstFailureSpec
    unfold findPollRow at hfind
    simp only [hfind]
    simp [hlive, hsingle, hX]
  have herr := votePollTx_errors db now u pid [X, X]
  rw [hspec] at herr
  have htx : votePollTx db now u pid [X, X]
      = .error .MultipleNotAllowed := by
    cases hcall : votePollTx db now u pid [X, X] with
    | error e =>
      rw [hcall] at herr
      simp [exceptError] at herr
      rw [herr]
    | ok pr =>
      rw [hcall] at herr
      simp [exceptError] at herr
  constructor
  · unfold votePollRoute
    simp [htx]
  · simp only [step]
    unfold votePollRoute
    simp [htx]

/-- C10 witness: the duplicate-entry behaviour on the sample
single-select poll. -/
theorem votePoll_duplicate_ids_witness :
    (findPollRow dbW 1 = some ⟨1, false, none, none, 0⟩ ∧
      (⟨1, false, none, none, 0⟩ : Poll).allowMultiple = false ∧
      (⟨1, false, none, none, 0⟩ : Poll).endsAt.all
        (fun e => decide ((0 : Int) ≤ e)) = true ∧
      11 ∈ pollValidIds dbW 1) ∧
    (votePollRoute dbW 0 1 1 [11, 11] = .error .MultipleNotAllowed ∧
      step dbW (Op.poll 0 1 1 [11, 11]) = dbW) :=
  ⟨⟨by decide, by decide, by decide, by decide⟩,
   votePoll_duplicate_ids dbW 0 1 1 11 ⟨1, false, none, none, 0⟩
     (by decide) (by decide) (by decide) (by decide)⟩

/-! ### Non-atomicity of the post reaction handler -/

/-- C2 counterexample: aborting the post react handler after its
ledger write but before its counter write (abort point 1) leaves a
state that is neither the pre-call state nor the committed state: the
reaction row exists while `upvotes` is still 0. -/
theorem toggleReaction_not_transactional_counterexample :
    toggleReactionPostAborted dbW 1 1 RType.UPVOTE 1 ≠ dbW ∧
    (toggleReactionPost dbW 1 1 RType.UPVOTE).toOption.map (fun r => r.1)
      ≠ some (toggleReactionPostAborted dbW 1 1 RType.UPVOTE 1) ∧
    (toggleReactionPostAborted dbW 1 1 RType.UPVOTE 1).postReactions
      = [⟨1, 1, RType.UPVOTE⟩] ∧
    postCounters (toggleReactionPostAborted dbW 1 1 RType.UPVOTE 1) 1
      = some (0, 0) := by decide

/-- C2 amended: the post react handler runs its prisma calls outside
any transaction.  An abort before the ledger write leaves the state
unchanged and an abort after both writes equals the committed state,
but an abort between the ledger mutation and the counter write leaves
the mutated reaction ledger with the post row untouched — a partial
ledger-change-without-counter-update state survives (healed only by
the next recompute on that post). -/
theorem toggleReactionPost_not_atomic (db : Db) (u p : Nat) (t : RType)
    (post : Post) (hfp : findPost db p = some post)
    (hhid : post.isHidden = false) :
    toggleReactionPostAborted db u p t 0 = db ∧
    (toggleReactionPostAborted db u p t 1).postReactions
      = mutateReactions db.postReactions u p t ∧
    (toggleReactionPostAborted db u p t 1).posts = db.posts ∧
    (toggleReactionPost db u p t).toOption.map (fun r => r.1)
      = some (toggleReactionPostAborted db u p t 2) := by
  unfold findPost at hfp
  unfold toggleReactionPost toggleReactionPostAborted
  rw [hfp]
  simp [hhid, Except.toOption]

/-- C2 witness: the abort-point characterization at the sample post. -/
theorem toggleReactionPost_not_atomic_witness :
    (findPost dbW 1 = some ⟨1, false, 0, 0, 0, 0⟩ ∧
      (⟨1, false, 0, 0, 0, 0⟩ : Post).isHidden = false) ∧
    (toggleReactionPostAborted dbW 1 1 RType.UPVOTE 0 = dbW ∧
      (toggleReactionPostAborted dbW 1 1 RType.UPVOTE 1).postReactions
        = mutateReactions dbW.postReactions 1 1 RType.UPVOTE ∧
      (toggleReactionPostAborted dbW 1 1 RType.UPVOTE 1).posts = dbW.posts ∧
      (toggleReactionPost dbW 1 1 RType.UPVOTE).toOption.map (fun r => r.1)
        = some (toggleReactionPostAborted dbW 1 1 RType.UPVOTE 2)) :=
  ⟨⟨by decide, by decide⟩,
   toggleReactionPost_not_atomic dbW 1 1 RType.UPVOTE ⟨1, false, 0, 0, 0, 0⟩
     (by decide) (by decide)⟩

/-! ### Comment reactions are a like toggle -/

/-- Sample database where user 1 holds a DOWNVOTE reaction row on
comment 1 of post 2, whose `likeCount` is 5. -/
def dbC4 : Db :=
  { posts := [⟨2, false, 0, 0, 0, 0⟩]
    postReactions := []
    vsVotes := []
    comments := [⟨1, 2, false, 5⟩]
    commentReactions := [⟨1, 1, RType.DOWNVOTE⟩]
    polls := []
    pollOptions := []
    pollVotes := [] }

/-- C4 counterexample: reacting on a comment whose existing reaction
row has a different type does not update the row in place and does not
recount — the handler deletes the row and decrements `likeCount` from
5 to 4 (a recount over the remaining 0 rows would give 0; the claimed
switch would leave a row of the requested type and count 1). -/
theorem commentReact_no_switch_counterexample :
    dbC4.commentReactions = [⟨1, 1, RType.DOWNVOTE⟩] ∧
    ((commentReact dbC4 1 1 2).toOption.bind (fun db2 =>
      db2.commentReactions.find?
        (fun r => r.userId == 1 && r.commentId == 1))) = none ∧
    ((commentReact dbC4 1 1 2).toOption.bind (fun db2 =>
      (db2.comments.find? (fun d => d.id == 1)).map Comment.likeCount))
      = some 4 ∧
    (4 : Int) ≠ 0 ∧ (4 : Int) ≠ 1 := by decide

/-- C4 amended: `POST /comments/:id/react` is a like toggle: the body
carries no reaction type; with no existing (userId, commentId) row the
handler inserts an UPVOTE row and increments `likeCount` by one, with
an existing row of whatever type it deletes the row and decrements
`likeCount` by one — never a switch in place, and the counter is
adjusted incrementally rather than recounted from the ledger. -/
theorem commentReact_like_toggle (db : Db) (u cid pid : Nat)
    (c : Comment) (hc : db.comments.find? (fun d => d.id == cid) = some c)
    (hcp : c.postId = pid) (hch : c.isHidden = false)
    (post : Post)
    (hp : (commentReactMut db u cid).posts.find? (fun q => q.id == pid)
        = some post)
    (hph : post.isHidden = false) :
    commentReact db u cid pid = .ok (commentReactMut db u cid) ∧
    (db.commentReactions.find?
        (fun r => r.userId == u && r.commentId == cid) = none →
      (commentReactMut db u cid).commentReactions.find?
          (fun r => r.userId == u && r.commentId == cid)
        = some ⟨u, cid, RType.UPVOTE⟩ ∧
      ((commentReactMut db u cid).comments.find?
          (fun d => d.id == cid)).map Comment.likeCount
        = some (c.likeCount + 1)) ∧
    (∀ ex, db.commentReactions.find?
        (fun r => r.userId == u && r.commentId == cid) = some ex →
      (commentReactMut db u cid).commentReactions.find?
          (fun r => r.userId == u && r.commentId == cid) = none ∧
      ((commentReactMut db u cid).comments.find?
          (fun d => d.id == cid)).map Comment.likeCount
        = some (c.likeCount - 1)) := by
  have hcid : (c.id == cid) = true := by
    have h2 := List.find?_some hc
    simpa using h2
  refine ⟨?_, ?_, ?_⟩
  · unfold commentReact
    rw [hc]
    have hcond : (!(c.postId == pid) || c.isHidden) = false := by
      simp [hcp, hch]
    simp only [hcond, Bool.false_eq_true, if_false]
    rw [hp]
    simp [hph]
  · intro hnone
    constructor
    · unfold commentReactMut
      rw [hnone]
      simp
    · unfold commentReactMut
      rw [hnone]
      simp only []
      rw [find?_map_inv]
      · rw [hc]
        have hcc : c.id = cid := by simpa using hcid
        simp [hcc]
      · intro a
        cases hpr : (a.id == cid) with
        | false => simp [hpr]
        | true => simp [hpr]
  · intro ex hex
    constructor
    · unfold commentReactMut
      rw [hex]
      simp only []
      rw [List.find?_eq_none]
      intro x hx
      have := (List.mem_filter.mp hx).2
      simp only [Bool.not_eq_true'] at this
      simp [this]
    · unfold commentReactMut
      rw [hex]
      simp only []
      rw [find?_map_inv]
      · rw [hc]
        have hcc : c.id = cid := by simpa using hcid
        simp [hcc]
      · intro a
        cases hpr : (a.id == cid) with
        | false => simp [hpr]
        | true => simp [hpr]

/-- C4 witness: the like-toggle characterization at the sample comment
with no prior reaction. -/
theorem commentReact_like_toggle_witness :
    (dbW.comments.find? (fun d => d.id == 1) = some ⟨1, 1, false, 0⟩ ∧
      (⟨1, 1, false, 0⟩ : Comment).postId = 1 ∧
      (⟨1, 1, false, 0⟩ : Comment).isHidden = false ∧
      (commentReactMut dbW 5 1).posts.find? (fun q => q.id == 1)
        = some ⟨1, false, 0, 0, 0, 0⟩ ∧
      (⟨1, false, 0, 0, 0, 0⟩ : Post).isHidden = false) ∧
    (commentReact dbW 5 1 1 = .ok (commentReactMut dbW 5 1) ∧
      (dbW.commentReactions.find?
          (fun r => r.userId == 5 && r.commentId == 1) = none →
        (commentReactMut dbW 5 1).commentReactions.find?
            (fun r => r.userId == 5 && r.commentId == 1)
          = some ⟨5, 1, RType.UPVOTE⟩ ∧
        ((commentReactMut dbW 5 1).comments.find?
            (fun d => d.id == 1)).map Comment.likeCount
          = some ((0 : Int) + 1)) ∧
      (∀ ex, dbW.commentReactions.find?
          (fun r => r.userId == 5 && r.commentId == 1) = some ex →
        (commentReactMut dbW 5 1).commentReactions.find?
            (fun r => r.userId == 5 && r.commentId == 1) = none ∧
        ((commentReactMut dbW 5 1).comments.find?
            (fun d => d.id == 1)).map Comment.likeCount
          = some ((0 : Int) - 1))) :=
  ⟨⟨by decide, by decide, by decide, by decide, by decide⟩,
   commentReact_like_toggle dbW 5 1 1 ⟨1, 1, false, 0⟩ (by decide)
     (by decide) (by decide) ⟨1, false, 0, 0, 0, 0⟩ (by decide) (by decide)⟩

/-! ### Double toggle -/

/-- The post list written by a successful reaction toggle: fresh
counts on the target post, all other rows unchanged. -/
def togglePosts (db : Db) (u p : Nat) (t : RType) : List Post :=
  db.posts.map (fun q =>
    if q.id == p then
      { q with
        upvotes := countRT (mutateReactions db.postReactions u p t) p .UPVOTE,
        downvotes :=
          countRT (mutateReactions db.postReactions u p t) p .DOWNVOTE }
    else q)

/-- The state written by a successful reaction toggle. -/
def toggleDb (db : Db) (u p : Nat) (t : RType) : Db :=
  { db with
    posts := togglePosts db u p t,
    postReactions := mutateReactions db.postReactions u p t }

theorem toggleDb_postReactions (db : Db) (u p : Nat) (t : RType) :
    (toggleDb db u p t).postReactions
      = mutateReactions db.postReactions u p t := rfl

/-- A reaction toggle on an existing, visible post succeeds and
returns the `toggleDb` state together with the fresh counts. -/
theorem toggleReactionPost_run (db : Db) (u p : Nat) (t : RType)
    (post : Post) (hfp : findPost db p = some post)
    (hhid : post.isHidden = false) :
    toggleReactionPost db u p t = .ok (toggleDb db u p t,
      countRT (mutateReactions db.postReactions u p t) p .UPVOTE,
      countRT (mutateReactions db.postReactions u p t) p .DOWNVOTE) := by
  unfold findPost at hfp
  unfold toggleReactionPost toggleDb togglePosts
  rw [hfp]
  simp [hhid]

/-- Looking up the target post after a toggle returns the old row with
the fresh counters written in. -/
theorem findPost_toggleDb (db : Db) (u p : Nat) (t : RType) (post : Post)
    (hfp : findPost db p = some post) (hpostid : (post.id == p) = true) :
    findPost (toggleDb db u p t) p = some
      { post with
        upvotes := countRT (mutateReactions db.postReactions u p t) p .UPVOTE,
        downvotes :=
          countRT (mutateReactions db.postReactions u p t) p .DOWNVOTE } := by
  unfold findPost at hfp ⊢
  unfold toggleDb togglePosts
  simp only []
  rw [find?_map_inv]
  · rw [hfp]
    have hpp : post.id = p := by simpa using hpostid
    simp [hpp]
  · intro a
    cases hpr : (a.id == p) with
    | false => simp [hpr]
    | true => simp [hpr]

/-- Mutating a (unique-rowed, not-opposite-typed) ledger twice with the
same type restores the caller's row and every per-type count of the
post. -/
theorem mutate_twice (rs : List PostReaction) (u p : Nat) (t : RType)
    (huniq : rs.countP (fun r => r.userId == u && r.postId == p) ≤ 1)
    (hnotopp : ∀ r, rs.find? (fun r => r.userId == u && r.postId == p)
        = some r → r.type = t) :
    (mutateReactions (mutateReactions rs u p t) u p t).find?
        (fun r => r.userId == u && r.postId == p)
      = rs.find? (fun r => r.userId == u && r.postId == p) ∧
    ∀ t', countRT (mutateReactions (mutateReactions rs u p t) u p t) p t'
        = countRT rs p t' := by
  cases hfr : rs.find? (fun r => r.userId == u && r.postId == p) with
  | none =>
    have hall : ∀ x ∈ rs, ¬ (x.userId == u && x.postId == p) = true :=
      List.find?_eq_none.mp hfr
    have hm1 : mutateReactions rs u p t = ⟨u, p, t⟩ :: rs := by
      unfold mutateReactions
      rw [hfr]
    have hfr1 : (⟨u, p, t⟩ :: rs : List PostReaction).find?
        (fun r => r.userId == u && r.postId == p)
        = some ⟨u, p, t⟩ := by
      simp [List.find?_cons]
    have hm2 : mutateReactions (⟨u, p, t⟩ :: rs) u p t
        = (⟨u, p, t⟩ :: rs : List PostReaction).filter
            (fun r => !(r.userId == u && r.postId == p)) := by
      unfold mutateReactions
      rw [hfr1]
      simp
    have hfil : (⟨u, p, t⟩ :: rs : List PostReaction).filter
        (fun r => !(r.userId == u && r.postId == p)) = rs := by
      rw [List.filter_cons]
      have hhd : (!((⟨u, p, t⟩ : PostReaction).userId == u
          && (⟨u, p, t⟩ : PostReaction).postId == p)) = false := by simp
      simp only [hhd, Bool.false_eq_true, if_false]
      rw [List.filter_eq_self]
      intro a ha
      simp [hall a ha]
    rw [hm1, hm2, hfil, hfr]
    exact ⟨rfl, fun t' => rfl⟩
  | some ex =>
    have hext : ex.type = t := hnotopp ex hfr
    have hexpr : (ex.userId == u && ex.postId == p) = true := by
      have h2 := List.find?_some hfr
      simpa using h2
    have hexeq : ex = ⟨u, p, t⟩ := by
      obtain ⟨eu, ep, et⟩ := ex
      have h2 := (Bool.and_eq_true _ _).mp hexpr
      have h3 : eu = u := eq_of_beq h2.1
      have h4 : ep = p := eq_of_beq h2.2
      have h5 : et = t := hext
      subst h3; subst h4; subst h5
      rfl
    have hm1 : mutateReactions rs u p t
        = rs.filter (fun r => !(r.userId == u && r.postId == p)) := by
      unfold mutateReactions
      rw [hfr]
      simp [hext]
    have hfr1 : (rs.filter
        (fun r => !(r.userId == u && r.postId == p))).find?
        (fun r => r.userId == u && r.postId == p) = none := by
      rw [List.find?_eq_none]
      intro x hx
      have := (List.mem_filter.mp hx).2
      simp only [Bool.not_eq_true'] at this
      simp [this]
    have hm2 : mutateReactions (rs.filter
        (fun r => !(r.userId == u && r.postId == p))) u p t
        = ⟨u, p, t⟩ :: rs.filter
            (fun r => !(r.userId == u && r.postId == p)) := by
      unfold mutateReactions
      rw [hfr1]
    constructor
    · rw [hm1, hm2, hexeq]
      simp [List.find?_cons]
    · intro t'
      rw [hm1, hm2]
      unfold countRT
      rw [List.countP_cons]
      have hrem := countP_remove_unique rs
        (fun r => r.userId == u && r.postId == p)
        (fun r => r.postId == p && decide (r.type = t')) ex hfr huniq
      rw [hexeq] at hrem
      simp only [] at hrem
      simp only []
      omega

/-- Sample database where user 1 holds a DOWNVOTE row on post 1 whose
counters are consistent with the ledger. -/
def dbC8 : Db :=
  { posts := [⟨1, false, 0, 1, 0, 0⟩]
    postReactions := [⟨1, 1, RType.DOWNVOTE⟩]
    vsVotes := []
    comments := []
    commentReactions := []
    polls := []
    pollOptions := []
    pollVotes := [] }

/-- C8 counterexample: starting from an existing DOWNVOTE, toggling
UPVOTE twice does not return to the pre-toggle state — the first call
switches the row, the second deletes it, ending with no row and
counters (0, 0) instead of the original DOWNVOTE row and (0, 1). -/
theorem toggle_twice_counterexample :
    findReaction dbC8 1 1 = some ⟨1, 1, RType.DOWNVOTE⟩ ∧
    postCounters dbC8 1 = some (0, 1) ∧
    ¬ (((toggleReactionPost dbC8 1 1 RType.UPVOTE).toOption.bind (fun r1 =>
        (toggleReactionPost r1.1 1 1 RType.UPVOTE).toOption.map (fun r2 =>
          (findReaction r2.1 1 1, postCounters r2.1 1))))
        = some (findReaction dbC8 1 1, postCounters dbC8 1)) := by decide

/-- C8 amended: double toggling the same (user, target, type) restores
the user's reaction row and the target's counters for every starting
state in which the (user, target) row is unique, the stored counters
agree with the ledger, and the user's existing reaction (when present)
is not of the other type. -/
theorem toggle_twice_restores (db : Db) (u p : Nat) (t : RType)
    (post : Post) (hfp : findPost db p = some post)
    (hhid : post.isHidden = false)
    (huniq : db.postReactions.countP
        (fun r => r.userId == u && r.postId == p) ≤ 1)
    (hup : post.upvotes = countRT db.postReactions p .UPVOTE)
    (hdn : post.downvotes = countRT db.postReactions p .DOWNVOTE)
    (hnotopp : ∀ r, findReaction db u p = some r → r.type = t) :
    ∃ db1 c1 db2 c2,
      toggleReactionPost db u p t = .ok (db1, c1) ∧
      toggleReactionPost db1 u p t = .ok (db2, c2) ∧
      findReaction db2 u p = findReaction db u p ∧
      postCounters db2 p = some (post.upvotes, post.downvotes) := by
  have hpostid : (post.id == p) = true := by
    unfold findPost at hfp
    have h2 := List.find?_some hfp
    simpa using h2
  have hmt := mutate_twice db.postReactions u p t huniq
    (by
      intro r hr
      exact hnotopp r hr)
  have h1 := toggleReactionPost_run db u p t post hfp hhid
  have hfp1 := findPost_toggleDb db u p t post hfp hpostid
  have h2 := toggleReactionPost_run (toggleDb db u p t) u p t _ hfp1 hhid
  refine ⟨toggleDb db u p t, _, toggleDb (toggleDb db u p t) u p t, _,
    h1, h2, ?_, ?_⟩
  · unfold findReaction
    exact hmt.1
  · unfold postCounters
    have hfp2 := findPost_toggleDb (toggleDb db u p t) u p t _ hfp1 hpostid
    rw [hfp2]
    simp only [Option.map_some']
    show some
        (countRT (mutateReactions (mutateReactions db.postReactions u p t)
            u p t) p RType.UPVOTE,
          countRT (mutateReactions (mutateReactions db.postReactions u p t)
            u p t) p RType.DOWNVOTE)
      = some (post.upvotes, post.downvotes)
    rw [hmt.2 RType.UPVOTE, hmt.2 RType.DOWNVOTE, ← hup, ← hdn]

/-- Sample database where user 1 holds an UPVOTE row on post 1 whose
counters are consistent with the ledger. -/
def dbT : Db :=
  { posts := [⟨1, false, 1, 0, 0, 0⟩]
    postReactions := [⟨1, 1, RType.UPVOTE⟩]
    vsVotes := []
    comments := []
    commentReactions := []
    polls := []
    pollOptions := []
    pollVotes := [] }

/-- C8 witness: the double-toggle restoration at the sample state with
an existing same-type reaction. -/
theorem toggle_twice_restores_witness :
    ∃ db1 c1 db2 c2,
      toggleReactionPost dbT 1 1 RType.UPVOTE = .ok (db1, c1) ∧
      toggleReactionPost db1 1 1 RType.UPVOTE = .ok (db2, c2) ∧
      findReaction db2 1 1 = findReaction dbT 1 1 ∧
      postCounters db2 1 = some (1, 0) :=
  toggle_twice_restores dbT 1 1 RType.UPVOTE ⟨1, false, 1, 0, 0, 0⟩
    (by decide) (by decide) (by decide) (by decide) (by decide)
    (by
      intro r hr
      have h0 : findReaction dbT 1 1 = some ⟨1, 1, RType.UPVOTE⟩ := by decide
      rw [h0] at hr
      injection hr with h
      subst h
      rfl)

end PulseApi
